import Mathlib

/-!
Shallow embedding of the notification-settings reconciliation module
(src/unnamed/part_000, a TypeScript utility library).

JavaScript objects whose keys are strings are modelled as association
lists of type List (String × _) holding the entries in enumeration
order.  Object.values / Object.entries become projections of that list,
Object.fromEntries becomes the list itself (keys produced by the code
below are pairwise distinct), and property lookup becomes List.lookup.
Array.prototype.pop() on the value list becomes List.getLast?.

JavaScript falsiness matters in two places: the empty string is falsy
(so a "|| fallback" expression replaces it), while an empty object is
truthy.  jsOrStr models the former for string-valued expressions.

Fallible code paths (property access on undefined, such as
Object.entries(undefined) or undefined.split) are modelled with Option:
a none result corresponds to a thrown TypeError.
-/

/-- A provider-to-level mapping, the leaf objects of the settings tree. -/
abbrev ProviderValues := List (String × String)

/-- scopeId-to-providers mapping. -/
abbrev ScopeIdData := List (String × ProviderValues)

/-- scopeType-to-scopeIds mapping. -/
abbrev ScopeTypeData := List (String × ScopeIdData)

/-- The four-level settings tree: type, scopeType, scopeId, provider, level. -/
abbrev NotificationSettingsObject := List (String × ScopeTypeData)

/-- The module-level constant ALL_PROVIDERS: email defaults to "default",
slack defaults to "never". -/
def ALL_PROVIDERS : ProviderValues := [("email", "default"), ("slack", "never")]

/-- Which fine tuning parts are grouped by project. -/
def isGroupedByProject (notificationType : String) : Bool :=
  (["alerts", "email", "workflow"]).contains notificationType

/-- getParentKey from the source: "project" for project-grouped types,
"organization" otherwise. -/
def getParentKey (notificationType : String) : String :=
  if isGroupedByProject notificationType then "project" else "organization"

/-- getFallBackValue from the source: the switch statement mapping each
notification type to its hardcoded default level (empty string default). -/
def getFallBackValue (notificationType : String) : String :=
  if notificationType == "alerts" then "always"
  else if notificationType == "deploy" then "committed_only"
  else if notificationType == "workflow" then "subscribe_only"
  else ""

/-- JavaScript String.prototype.split with a one-character separator,
modelled on the character list (kernel-reducible, unlike String.splitOn).
Agrees with JS: "".split(c) = [""], and empty segments are kept. -/
def jsSplit (sep : Char) (s : String) : List String :=
  (s.toList.splitOn sep).map (fun cs => String.mk cs)

/-- lodash reEscapeChar replacement: the regex backslash-(backslash)? is
replaced by its group, so a double backslash collapses to one and a lone
backslash is removed. -/
def lodashUnescape : List Char → List Char
  | [] => []
  | '\\' :: '\\' :: rest => '\\' :: lodashUnescape rest
  | '\\' :: rest => lodashUnescape rest
  | c :: rest => c :: lodashUnescape rest

/-- The quoted-bracket alternative of lodash rePropName after the opening
quote q: lazily take units (a non-backslash character other than q, or a
backslash followed by any non-line-terminator character) until the closing
quote immediately followed by a right bracket.  Returns the still-escaped
content and the characters after that bracket; none when the alternative
cannot match.  A raw q can never be part of the content, so the first raw
q must close it: the lazy and greedy readings coincide. -/
def scanQuoted (q : Char) : Nat → List Char → Option (List Char × List Char)
  | 0, _ => none
  | _ + 1, [] => none
  | fuel + 1, c :: rest =>
      if c == q then
        match rest with
        | ']' :: rem => some ([], rem)
        | _ => none
      else if c == '\\' then
        match rest with
        | [] => none
        | d :: rest2 =>
            if (d == '\n') || (d == '\r') || (d == '\u2028') || (d == '\u2029') then
              none
            else
              match scanQuoted q fuel rest2 with
              | some (content, rem) => some (c :: d :: content, rem)
              | none => none
      else
        match scanQuoted q fuel rest with
        | some (content, rem) => some (c :: content, rem)
        | none => none

/-- Index of the last right bracket in a character list, if any. -/
def lastRightBracket (cs : List Char) : Option Nat :=
  cs.enum.foldl (fun acc p => if p.2 == ']' then some p.1 else acc) none

/-- The bracket alternative of lodash rePropName, applied to the characters
after an opening bracket.  A quote starts the quoted alternative (the
escaped content is unescaped before being pushed); otherwise the
non-string-expression alternative takes one character that is not a quote
and then greedily characters other than a left bracket, backtracking to
end at a right bracket — that is, up to the last right bracket of the run.
Returns the segment and the characters after its closing bracket. -/
def bracketSegment : List Char → Option (String × List Char)
  | [] => none
  | q :: rest =>
      if (q == '"') || (q == '\'') then
        match scanQuoted q (rest.length + 1) rest with
        | some (esc, rem) => some (String.mk (lodashUnescape esc), rem)
        | none => none
      else
        let run := rest.takeWhile (fun x => !(x == '['))
        match lastRightBracket run with
        | some k => some (String.mk (q :: run.take k), rest.drop (k + 1))
        | none => none

/-- One step of the empty-match lookahead of lodash rePropName: consume a
dot or an empty bracket pair, returning the remaining characters. -/
def dotOrEmptyBracket : List Char → Option (List Char)
  | '.' :: rest => some rest
  | '[' :: ']' :: rest => some rest
  | _ => none

/-- The zero-length alternative of lodash rePropName: a position followed
by a dot or empty bracket pair which is itself followed by a dot, an empty
bracket pair, or the end of the string. -/
def lookaheadEmpty (cs : List Char) : Bool :=
  match dotOrEmptyBracket cs with
  | none => false
  | some rest =>
      match rest with
      | [] => true
      | _ => (dotOrEmptyBracket rest).isSome

/-- The scan loop of lodash stringToPath: at each position try the
rePropName alternatives in order — a maximal run of characters other than
dot and brackets, then a bracket segment, then the zero-length lookahead
(which pushes an empty segment and advances one character) — and skip
characters where no alternative matches.  Fuel is structural so the
definition reduces in the kernel; every step consumes at least one
character, so an initial fuel of the input length suffices. -/
def stringToPathAux : Nat → List Char → List String
  | 0, _ => []
  | _ + 1, [] => []
  | fuel + 1, c :: rest =>
      if (c == '.') || (c == '[') || (c == ']') then
        if c == '[' then
          match bracketSegment rest with
          | some (seg, rem) => seg :: stringToPathAux fuel rem
          | none =>
              if lookaheadEmpty (c :: rest) then "" :: stringToPathAux fuel rest
              else stringToPathAux fuel rest
        else
          if lookaheadEmpty (c :: rest) then "" :: stringToPathAux fuel rest
          else stringToPathAux fuel rest
      else
        let tw := rest.takeWhile (fun x => !(x == '.') && !(x == '[') && !(x == ']'))
        String.mk (c :: tw) :: stringToPathAux fuel (rest.drop tw.length)

/-- lodash stringToPath (version 4.17): an initial empty segment when the
string starts with a dot, then the rePropName scan.  This is the path
parse lodash set applies to the joined string (castPath resolves to it
because the joined key always contains two dots, making isKey false for
any output whose own top-level property names are parse segments; the
capped memoization wrapper is semantically transparent). -/
def stringToPath (s : String) : List String :=
  let cs := s.toList
  (match cs with
   | '.' :: _ => [""]
   | _ => []) ++ stringToPathAux (cs.length + 1) cs

/-- The first pass of backfillMissingProvidersWithFallback: reduce over the
values of data left to right, keeping the previous accumulator on "never"
and otherwise replacing it with the current value; the passed-in
fallbackValue is the initial accumulator. -/
def backfillFallback (data : ProviderValues) (fallbackValue : String) : String :=
  (data.map Prod.snd).foldl
    (fun previousValue currentValue =>
      if currentValue == "never" then previousValue else currentValue)
    fallbackValue

/-- backfillMissingProvidersWithFallback from the source: the second pass
fills in a value for every key of ALL_PROVIDERS. -/
def backfillMissingProvidersWithFallback (data : ProviderValues)
    (providerList : List String) (fallbackValue scopeType : String) :
    ProviderValues :=
  (ALL_PROVIDERS.map Prod.fst).map
    (fun provider =>
      (provider,
        if providerList.contains provider then backfillFallback data fallbackValue
        else if scopeType == "user" then "never"
        else "default"))

/-- getUserDefaultValues from the source: the last value under
tree[type]?.user (Object.values(...).pop(), an object is truthy even when
empty), or the synthesized mapping built from ALL_PROVIDERS where a
"default" provider default is replaced by the type fallback value. -/
def getUserDefaultValues (notificationType : String)
    (notificationSettings : NotificationSettingsObject) : ProviderValues :=
  match ((((notificationSettings.lookup notificationType).bind
      (fun s => s.lookup "user")).getD []).map Prod.snd).getLast? with
  | some settingsByProvider => settingsByProvider
  | none =>
      ALL_PROVIDERS.map
        (fun pv =>
          (pv.1, if pv.2 == "default" then getFallBackValue notificationType else pv.2))

/-- getCurrentProviders from the source: providers of the user default
values whose level is not "never". -/
def getCurrentProviders (notificationType : String)
    (notificationSettings : NotificationSettingsObject) : List String :=
  ((getUserDefaultValues notificationType notificationSettings).filter
    (fun pv => !((["never"]).contains pv.2))).map Prod.fst

/-- The numeric encoding of levels used by decideDefault ("stolen from the
DB").  The JS comparator subtracts these numbers; for a string outside the
table the subtraction is NaN and Array.prototype.sort is unspecified, so
the model maps unknown strings to 0 (never exercised by the theorems below,
whose hypotheses restrict values to the five levels). -/
def levelValue (s : String) : Nat :=
  if s == "default" then 0
  else if s == "never" then 10
  else if s == "always" then 20
  else if s == "subscribe_only" then 30
  else if s == "committed_only" then 40
  else 0

/-- The comparator order used by decideDefault. -/
def levelLE (a b : String) : Prop := levelValue a ≤ levelValue b

instance : DecidableRel levelLE := fun a b => Nat.decLe (levelValue a) (levelValue b)

instance : IsTotal String levelLE := ⟨fun a b => Nat.le_total (levelValue a) (levelValue b)⟩

instance : IsTrans String levelLE := ⟨fun _ _ _ hab hbc => Nat.le_trans hab hbc⟩

/-- Array.prototype.sort with the decideDefault comparator, modelled by
insertion sort (any comparison sort agrees on lists where ties are equal
strings, which the theorems below guarantee through their hypotheses). -/
def sortLevels (l : List String) : List String := List.insertionSort levelLE l

/-- JavaScript (expr || dflt) for a possibly-undefined string expression:
undefined and the empty string are falsy, every other string is kept. -/
def jsOrStr (v : Option String) (dflt : String) : String :=
  match v with
  | none => dflt
  | some s => if s == "" then dflt else s

/-- The parent-independent setting of decideDefault: sort the user default
values by the level order and pop the last, with "never" as the fallback. -/
def parentIndependentSetting (notificationType : String)
    (notificationSettings : NotificationSettingsObject) : String :=
  jsOrStr
    ((sortLevels ((getUserDefaultValues notificationType notificationSettings).map
      Prod.snd)).getLast?) "never"

/-- The flattened level values across all scope ids under the parent key,
read by the parent-specific stage of decideDefault. -/
def parentSpecificValues (notificationType : String)
    (notificationSettings : NotificationSettingsObject) : List String :=
  ((((notificationSettings.lookup notificationType).bind
      (fun s => s.lookup (getParentKey notificationType))).getD []).map Prod.snd).flatMap
    (fun settingsByProvider => settingsByProvider.map Prod.snd)

/-- The parent-specific setting of decideDefault: sort the flattened parent
values by the level order and pop the last, with "default" as the fallback. -/
def parentSpecificSetting (notificationType : String)
    (notificationSettings : NotificationSettingsObject) : String :=
  jsOrStr ((sortLevels (parentSpecificValues notificationType notificationSettings)).getLast?)
    "default"

/-- decideDefault from the source: return the parent-independent setting
unless it is "never"; otherwise return the parent-specific setting with
"default" mapped to "never". -/
def decideDefault (notificationType : String)
    (notificationSettings : NotificationSettingsObject) : String :=
  if parentIndependentSetting notificationType notificationSettings ≠ "never" then
    parentIndependentSetting notificationType notificationSettings
  else if parentSpecificSetting notificationType notificationSettings == "default" then
    "never"
  else
    parentSpecificSetting notificationType notificationSettings

/-- isEverythingDisabled from the source. -/
def isEverythingDisabled (notificationType : String)
    (notificationSettings : NotificationSettingsObject) : Bool :=
  (["never", "default"]).contains (decideDefault notificationType notificationSettings)

/-- An untyped JavaScript value, needed to model lodash set faithfully:
with dots inside keys the joined path can create nesting that does not fit
the four-level tree type. -/
inductive JsVal where
  | str : String → JsVal
  | obj : List (String × JsVal) → JsVal

/-- JavaScript property assignment on an entry list: overwrite the first
occurrence of the key in place, otherwise append at the end. -/
def setEntry : List (String × JsVal) → String → JsVal → List (String × JsVal)
  | [], key, val => [(key, val)]
  | (k, v) :: rest, key, val =>
      if k == key then (key, val) :: rest else (k, v) :: setEntry rest key val

/-- The object lodash set descends into at an intermediate path segment:
the existing child when it is an object, a fresh empty object when the key
is absent or holds a non-object. -/
def objOrFresh : Option JsVal → JsVal
  | some (JsVal.obj ces) => JsVal.obj ces
  | _ => JsVal.obj []

/-- lodash set along an already-split path: walk the path, descending into
existing objects, replacing non-objects (and absent keys) with fresh empty
objects, and assign the value at the final segment.  On a non-object root
lodash returns the value unchanged. -/
def setPath : JsVal → List String → JsVal → JsVal
  | _, [], val => val
  | JsVal.obj entries, [key], val => JsVal.obj (setEntry entries key val)
  | JsVal.str s, [_], _ => JsVal.str s
  | JsVal.obj entries, key :: key2 :: rest, val =>
      JsVal.obj
        (setEntry entries key
          (setPath (objOrFresh (entries.lookup key)) (key2 :: rest) val))
  | JsVal.str s, _ :: _ :: _, _ => JsVal.str s

/-- A provider mapping embedded as a JavaScript object value. -/
def providerValuesToJs (settingsByProvider : ProviderValues) : JsVal :=
  JsVal.obj (settingsByProvider.map (fun pv => (pv.1, JsVal.str pv.2)))

/-- mergeNotificationSettings from the source: left-to-right over the
argument objects and their entries, lodash-set each provider mapping into
the output at the joined path [type, scopeType, scopeId].join(".") as
parsed by lodash stringToPath (dot separators and bracket segments).
lodash creates arrays rather than objects for freshly created containers
whose next segment is an array index; the model represents both as obj
keyed by the segment string, which reads identically through string-keyed
property lookup (jsGet), the only observation the theorems below make. -/
def mergeNotificationSettings (objects : List NotificationSettingsObject) : JsVal :=
  objects.foldl
    (fun output settingsByType =>
      settingsByType.foldl
        (fun output typeEntry =>
          typeEntry.2.foldl
            (fun output scopeTypeEntry =>
              scopeTypeEntry.2.foldl
                (fun output scopeIdEntry =>
                  setPath output
                    (stringToPath
                      (typeEntry.1 ++ "." ++ scopeTypeEntry.1 ++ "." ++ scopeIdEntry.1))
                    (providerValuesToJs scopeIdEntry.2))
                output)
            output)
        output)
    (JsVal.obj [])

/-- JavaScript property read on an untyped value. -/
def jsGet : JsVal → String → Option JsVal
  | JsVal.obj entries, key => entries.lookup key
  | JsVal.str _, _ => none

/-- Read the merged output at a three-segment path. -/
def lookupPath3 (v : JsVal) (t s i : String) : Option JsVal :=
  ((jsGet v t).bind (fun v2 => jsGet v2 s)).bind (fun v3 => jsGet v3 i)

/-- The (type, scopeType, scopeId, providerMapping) quadruples of a list of
settings trees, in the exact order mergeNotificationSettings writes them. -/
def flattenSettings (objects : List NotificationSettingsObject) :
    List ((String × String × String) × ProviderValues) :=
  objects.flatMap
    (fun settingsByType =>
      settingsByType.flatMap
        (fun typeEntry =>
          typeEntry.2.flatMap
            (fun scopeTypeEntry =>
              scopeTypeEntry.2.map
                (fun scopeIdEntry =>
                  ((typeEntry.1, scopeTypeEntry.1, scopeIdEntry.1), scopeIdEntry.2)))))

/-- Object.values(changedData)[0]: the first value of the single-key form
object supplied by the UI layer.  For an empty object JS yields undefined;
the model uses a sentinel string, never exercised by the theorems below. -/
def jsFirstValue (changedData : List (String × String)) : String :=
  ((changedData.map Prod.snd).head?).getD "undefined"

/-- getStateToPutForProvider from the source.  The none result models the
TypeError thrown when changedData.provider is undefined, or when the tree
is non-empty yet lacks the type key (Object.entries(undefined)). -/
def getStateToPutForProvider (notificationType : String)
    (notificationSettings : NotificationSettingsObject)
    (changedData : List (String × String)) : Option NotificationSettingsObject :=
  match changedData.lookup "provider" with
  | none => none
  | some providerString =>
      let providerList := jsSplit '+' providerString
      let fallbackValue := getFallBackValue notificationType
      if notificationSettings.length ≠ 0 then
        match notificationSettings.lookup notificationType with
        | none => none
        | some settingsByScopeType =>
            some
              [(notificationType,
                settingsByScopeType.map
                  (fun scopeTypeEntry =>
                    (scopeTypeEntry.1,
                      scopeTypeEntry.2.map
                        (fun scopeIdEntry =>
                          (scopeIdEntry.1,
                            backfillMissingProvidersWithFallback scopeIdEntry.2
                              providerList fallbackValue scopeTypeEntry.1)))))]
      else
        some
          [(notificationType,
            [("user",
              [("me", providerList.map (fun provider => (provider, fallbackValue)))])])]

/-- The provider list used by getStateToPutForDefault: the current
providers, replaced by the singleton email list when empty. -/
def currentOrEmailProviders (notificationType : String)
    (notificationSettings : NotificationSettingsObject) : List String :=
  let providerList := getCurrentProviders notificationType notificationSettings
  if providerList.isEmpty then ["email"] else providerList

/-- getStateToPutForDefault from the source: set every provider of the
effective provider list to the new value at user scope "me", and when the
new value is "never" additionally map every parent id under the parent key
to "default" for every provider of that same list. -/
def getStateToPutForDefault (notificationType : String)
    (notificationSettings : NotificationSettingsObject)
    (changedData : List (String × String)) (parentIds : List String) :
    NotificationSettingsObject :=
  let newValue := jsFirstValue changedData
  let providerList := currentOrEmailProviders notificationType notificationSettings
  if newValue == "never" then
    [(notificationType,
      [("user", [("me", providerList.map (fun provider => (provider, newValue)))]),
       (getParentKey notificationType,
        parentIds.map
          (fun parentId =>
            (parentId, providerList.map (fun provider => (provider, "default")))))])]
  else
    [(notificationType,
      [("user", [("me", providerList.map (fun provider => (provider, newValue)))])])]

/-- getStateToPutForParent from the source: one parent id under the parent
key, mapping each current provider (no email fallback here) to the new
value. -/
def getStateToPutForParent (notificationType : String)
    (notificationSettings : NotificationSettingsObject)
    (changedData : List (String × String)) (parentId : String) :
    NotificationSettingsObject :=
  let providerList := getCurrentProviders notificationType notificationSettings
  let newValue := jsFirstValue changedData
  [(notificationType,
    [(getParentKey notificationType,
      [(parentId, providerList.map (fun provider => (provider, newValue)))])])]

/-- The five enumerated levels of the data model. -/
def isLevel (s : String) : Prop :=
  s ∈ ["default", "never", "always", "subscribe_only", "committed_only"]

instance (s : String) : Decidable (isLevel s) := by
  unfold isLevel; infer_instance

/-- Maximum of a list of levels with respect to the enumerated order,
with a starting default.  This is the explicit max-fold the specification
describes for the Default Decision Engine. -/
def levelMaxD (dflt : String) (l : List String) : String :=
  l.foldl (fun a b => if levelValue a < levelValue b then b else a) dflt

/-- decideDefault as the specification words it: return the maximum
user-scope level when it differs from "never"; otherwise take the maximum
level across all provider mappings under the grouping scope, "default"
when none exist, and map "default" to "never". -/
def specDecideDefault (notificationType : String)
    (notificationSettings : NotificationSettingsObject) : String :=
  let parentIndependent :=
    levelMaxD "default"
      ((getUserDefaultValues notificationType notificationSettings).map Prod.snd)
  if parentIndependent ≠ "never" then parentIndependent
  else
    let parentSpecific :=
      levelMaxD "default" (parentSpecificValues notificationType notificationSettings)
    if parentSpecific = "default" then "never" else parentSpecific

/-- The merge step with the joined-then-parsed path, as the source writes
it: lodash set of the dot-joined keys. -/
def stepSplit (o : JsVal) (op : (String × String × String) × ProviderValues) : JsVal :=
  setPath o (stringToPath (op.1.1 ++ "." ++ op.1.2.1 ++ "." ++ op.1.2.2))
    (providerValuesToJs op.2)

/-- The merge step with the three keys taken as path segments directly,
which coincides with stepSplit exactly when stringToPath parses the joined
keys back into the three keys. -/
def stepExplicit (o : JsVal) (op : (String × String × String) × ProviderValues) :
    JsVal :=
  setPath o [op.1.1, op.1.2.1, op.1.2.2] (providerValuesToJs op.2)

/-- Concrete decision-precedence tree from the specification: a user-scope
"always" with a parent-scope "never" underneath. -/
def exTreeC4 : NotificationSettingsObject :=
  [("alerts",
    [("user", [("me", [("email", "always")])]),
     ("project", [("1", [("email", "never")])])])]

/-- A tree whose user-scope entry switches every provider off, so that no
provider is currently active. -/
def exTreeC8 : NotificationSettingsObject :=
  [("alerts", [("user", [("me", [("email", "never"), ("slack", "never")])])])]

/-- A tree with one active provider (email), used to exercise the cascade. -/
def exTreeC8w : NotificationSettingsObject :=
  [("alerts", [("user", [("me", [("email", "always"), ("slack", "never")])])])]

/-- A tree with an empty user-scope mapping over a parent-scope override. -/
def exTreeC9 : NotificationSettingsObject :=
  [("alerts",
    [("user", [("me", [])]),
     ("project", [("1", [("email", "subscribe_only")])])])]

/-- A workflow tree whose user-scope entry disables every provider. -/
def exTreeC10 : NotificationSettingsObject :=
  [("workflow", [("user", [("me", [("email", "never"), ("slack", "never")])])])]

/-- A tree whose type key contains a dot, defeating the joined dot-path. -/
def dottedTree : NotificationSettingsObject :=
  [("a.b", [("user", [("me", [("email", "always")])])])]

/-- A tree whose type key is dot-free but contains a bracket index, which
lodash stringToPath splits into two segments. -/
def bracketTree : NotificationSettingsObject :=
  [("a[0]", [("user", [("me", [("email", "always")])])])]

/-- First merge argument of the specification's right-bias example. -/
def mergeTreeA : NotificationSettingsObject :=
  [("alerts", [("user", [("me", [("email", "always")])])])]

/-- Second merge argument of the specification's right-bias example. -/
def mergeTreeB : NotificationSettingsObject :=
  [("alerts", [("user", [("me", [("email", "never")])])])]

theorem getFallBackValue_ne_never (notificationType : String) :
    getFallBackValue notificationType ≠ "never" := by
  unfold getFallBackValue
  split
  · decide
  · split
    · decide
    · split <;> decide

theorem isLevel_ne_empty {s : String} (h : isLevel s) : s ≠ "" := by
  simp only [isLevel, List.mem_cons, List.mem_singleton] at h
  rcases h with rfl | rfl | rfl | rfl | h
  · decide
  · decide
  · decide
  · decide
  · simp only [List.mem_singleton, List.not_mem_nil, or_false] at h
    subst h; decide

theorem levelValue_inj {a b : String} (ha : isLevel a) (hb : isLevel b)
    (h : levelValue a = levelValue b) : a = b := by
  simp only [isLevel, List.mem_cons, List.mem_singleton, List.not_mem_nil, or_false] at ha hb
  rcases ha with rfl | rfl | rfl | rfl | rfl <;>
    rcases hb with rfl | rfl | rfl | rfl | rfl <;> first | rfl | (exfalso; revert h; decide)

theorem pairwise_getLast?_bound {l : List String} {m : String}
    (hs : List.Pairwise levelLE l) (hl : l.getLast? = some m) :
    ∀ x ∈ l, levelValue x ≤ levelValue m := by
  induction l with
  | nil => simp at hl
  | cons a t ih =>
      cases t with
      | nil =>
          simp only [List.getLast?_cons, List.getLast?_nil, Option.getD_none,
            Option.some.injEq] at hl
          subst hl
          intro x hx
          simp only [List.mem_singleton] at hx
          subst hx; exact Nat.le_refl _
      | cons b t2 =>
          rw [List.getLast?_cons_cons] at hl
          have hpair := List.pairwise_cons.mp hs
          have hrec := ih hpair.2 hl
          intro x hx
          rcases List.mem_cons.mp hx with rfl | hx2
          · have hmem : m ∈ b :: t2 := by
              have hne : (b :: t2) ≠ [] := by simp
              rw [List.getLast?_eq_getLast _ hne, Option.some.injEq] at hl
              rw [← hl]; exact List.getLast_mem hne
            exact hpair.1 m hmem
          · exact hrec x hx2

theorem sortLevels_getLast_max {l : List String} (hl : l ≠ []) :
    ∃ m, (sortLevels l).getLast? = some m ∧ m ∈ l ∧
      ∀ x ∈ l, levelValue x ≤ levelValue m := by
  have hperm := List.perm_insertionSort levelLE l
  have hne : sortLevels l ≠ [] := by
    intro h
    exact hl (List.eq_nil_of_length_eq_zero (by
      rw [← hperm.length_eq]; simpa [sortLevels] using congrArg List.length h))
  have hsorted : List.Sorted levelLE (sortLevels l) :=
    List.sorted_insertionSort levelLE l
  refine ⟨(sortLevels l).getLast hne, List.getLast?_eq_getLast _ hne, ?_, ?_⟩
  · exact hperm.mem_iff.mp (List.getLast_mem hne)
  · intro x hx
    exact pairwise_getLast?_bound hsorted (List.getLast?_eq_getLast _ hne) x
      (hperm.mem_iff.mpr hx)

theorem levelMaxD_cases (dflt : String) (l : List String) :
    (levelMaxD dflt l = dflt ∨ levelMaxD dflt l ∈ l) ∧
      levelValue dflt ≤ levelValue (levelMaxD dflt l) ∧
      ∀ x ∈ l, levelValue x ≤ levelValue (levelMaxD dflt l) := by
  induction l generalizing dflt with
  | nil => exact ⟨Or.inl rfl, Nat.le_refl _, by simp⟩
  | cons a t ih =>
      have step : levelMaxD dflt (a :: t) =
          levelMaxD (if levelValue dflt < levelValue a then a else dflt) t := rfl
      set d2 := if levelValue dflt < levelValue a then a else dflt with hd2
      obtain ⟨hmem, hinit, hbound⟩ := ih d2
      rw [step]
      refine ⟨?_, ?_, ?_⟩
      · rcases hmem with h | h
        · rw [h, hd2]
          split
          · exact Or.inr (List.mem_cons_self a t)
          · exact Or.inl rfl
        · exact Or.inr (List.mem_cons_of_mem a h)
      · refine Nat.le_trans ?_ hinit
        rw [hd2]; split
        · exact Nat.le_of_lt (by assumption)
        · exact Nat.le_refl _
      · intro x hx
        rcases List.mem_cons.mp hx with rfl | hx2
        · refine Nat.le_trans ?_ hinit
          rw [hd2]; split
          · exact Nat.le_refl _
          · exact Nat.le_of_not_lt (by assumption)
        · exact hbound x hx2

/-- On a non-empty list of well-formed levels, sort-then-pop with a falsy
fallback computes exactly the max-fold from "default". -/
theorem jsOr_sort_eq_levelMaxD {l : List String} (hl : l ≠ [])
    (hvalid : ∀ x ∈ l, isLevel x) (dflt : String) :
    jsOrStr ((sortLevels l).getLast?) dflt = levelMaxD "default" l := by
  obtain ⟨m, hlast, hmem, hbound⟩ := sortLevels_getLast_max hl
  obtain ⟨hcase, _, hbound2⟩ := levelMaxD_cases "default" l
  have hmv : isLevel m := hvalid m hmem
  have hMv : isLevel (levelMaxD "default" l) := by
    rcases hcase with h | h
    · rw [h]; decide
    · exact hvalid _ h
  have hval : levelValue m = levelValue (levelMaxD "default" l) := by
    apply Nat.le_antisymm
    · exact hbound2 m hmem
    · rcases hcase with h | h
      · rw [h]; exact Nat.zero_le _
      · exact hbound _ h
  have heq : m = levelMaxD "default" l := levelValue_inj hmv hMv hval
  rw [hlast, jsOrStr]
  have hne : (m == "") = false := beq_eq_false_iff_ne.mpr (isLevel_ne_empty hmv)
  rw [hne]
  simp only [Bool.false_eq_true, if_false]
  exact heq

/-- C4: decideDefault follows the two-stage precedence of the specification:
the maximum user-scope level per the enumerated order when it differs from
"never", otherwise the maximum level across all provider mappings under the
grouping scope ("default" when none exist) with "default" mapped to "never".
Hypotheses: the user-scope mapping is non-empty and every level string in
sight belongs to the enumerated level set (outside it, the JS comparator
returns NaN and Array.prototype.sort is unspecified). -/
theorem decideDefault_two_stage (t : String) (tree : NotificationSettingsObject)
    (hU : getUserDefaultValues t tree ≠ [])
    (hUv : ∀ v ∈ (getUserDefaultValues t tree).map Prod.snd, isLevel v)
    (hPv : ∀ v ∈ parentSpecificValues t tree, isLevel v) :
    decideDefault t tree = specDecideDefault t tree := by
  have hUne : (getUserDefaultValues t tree).map Prod.snd ≠ [] := by
    simpa using hU
  have h1 : parentIndependentSetting t tree =
      levelMaxD "default" ((getUserDefaultValues t tree).map Prod.snd) := by
    unfold parentIndependentSetting
    exact jsOr_sort_eq_levelMaxD hUne hUv "never"
  have h2 : parentSpecificSetting t tree =
      levelMaxD "default" (parentSpecificValues t tree) := by
    unfold parentSpecificSetting
    rcases eq_or_ne (parentSpecificValues t tree) [] with h | h
    · rw [h]; rfl
    · exact jsOr_sort_eq_levelMaxD h hPv "default"
  unfold decideDefault specDecideDefault
  rw [h1, h2]
  simp only [beq_iff_eq]

/-- Witness for C4 at the specification's decision-precedence example. -/
theorem decideDefault_two_stage_witness :
    decideDefault "alerts" exTreeC4 = specDecideDefault "alerts" exTreeC4 ∧
      decideDefault "alerts" exTreeC4 = "always" :=
  ⟨decideDefault_two_stage "alerts" exTreeC4 (by decide) (by decide) (by decide),
   by decide⟩

/-- C1 counterexample: on the empty tree the synthesized deploy defaults are
email = "committed_only" (enabled), so isEverythingDisabled("deploy", {}) is
false, not true as claimed. -/
theorem isEverythingDisabled_deploy_empty_cex :
    isEverythingDisabled "deploy" [] = false := by decide

/-- C1 amended: isEverythingDisabled("deploy", {}) is false, because
decideDefault("deploy", {}) = "committed_only", which is outside
the disabled set; the claimed equivalence with decideDefault landing in
the never/default set does hold for every type and tree. -/
theorem isEverythingDisabled_deploy_empty_amended :
    decideDefault "deploy" [] = "committed_only" ∧
      isEverythingDisabled "deploy" [] = false ∧
      ∀ (t : String) (tree : NotificationSettingsObject),
        isEverythingDisabled t tree = true ↔
          decideDefault t tree ∈ (["never", "default"] : List String) := by
  refine ⟨by decide, by decide, ?_⟩
  intro t tree
  unfold isEverythingDisabled
  constructor
  · intro h
    simpa using List.mem_of_elem_eq_true h
  · intro h
    simpa using List.elem_eq_true_of_mem h

/-- C2 counterexample: with no user-scope data at all, getCurrentProviders
does not return the empty sequence. -/
theorem getCurrentProviders_deploy_empty_cex :
    getCurrentProviders "deploy" [] ≠ [] := by decide

/-- C2 amended: when no user-scope data exists under the type (the entry is
absent or empty), the synthesized defaults leave exactly email active, since
getFallBackValue never returns "never" and the slack default is "never", so
getCurrentProviders returns the one-element sequence email. -/
theorem getCurrentProviders_no_user_data (t : String)
    (tree : NotificationSettingsObject)
    (h : ((tree.lookup t).bind (fun s => s.lookup "user")).getD [] = []) :
    getCurrentProviders t tree = ["email"] := by
  unfold getCurrentProviders getUserDefaultValues
  rw [h]
  simp [ALL_PROVIDERS, List.filter,
    decide_eq_false (getFallBackValue_ne_never t)]

/-- Witness for C2 amended at the deploy type and the empty tree. -/
theorem getCurrentProviders_no_user_data_witness :
    ((([] : NotificationSettingsObject).lookup "deploy").bind
        (fun s => s.lookup "user")).getD [] = [] ∧
      getCurrentProviders "deploy" [] = ["email"] :=
  ⟨rfl, getCurrentProviders_no_user_data "deploy" [] rfl⟩

/-- C3 counterexample: a non-empty tree that lacks the type key makes
getStateToPutForProvider fail (Object.entries of undefined throws), instead
of synthesizing the user-scope patch. -/
theorem getStateToPutForProvider_missing_type_cex :
    getStateToPutForProvider "deploy" [("alerts", [])] [("provider", "email")] =
      none := rfl

/-- C3 amended: only for the fully empty settings tree does
getStateToPutForProvider synthesize, without error, the single user-scope
"me" entry mapping each requested provider to the type fallback; on a
non-empty tree lacking the type key it fails with a TypeError. -/
theorem getStateToPutForProvider_empty_tree (t : String)
    (changedData : List (String × String)) (providerString : String)
    (h : changedData.lookup "provider" = some providerString) :
    getStateToPutForProvider t [] changedData =
        some
          [(t,
            [("user",
              [("me",
                (jsSplit '+' providerString).map
                  (fun p => (p, getFallBackValue t)))])])] ∧
      ∀ tree : NotificationSettingsObject,
        tree ≠ [] → tree.lookup t = none →
          getStateToPutForProvider t tree changedData = none := by
  constructor
  · unfold getStateToPutForProvider
    rw [h]
    rfl
  · intro tree hne hlook
    unfold getStateToPutForProvider
    rw [h]
    have hlen : tree.length ≠ 0 := by simpa using hne
    simp [hlook, hlen]

/-- Witness for C3 amended: the empty-tree synthesis at deploy with two
requested providers, and the error case at a tree lacking the alerts key. -/
theorem getStateToPutForProvider_empty_tree_witness :
    getStateToPutForProvider "deploy" [] [("provider", "email+slack")] =
        some
          [("deploy",
            [("user",
              [("me",
                [("email", "committed_only"), ("slack", "committed_only")])])])] ∧
      getStateToPutForProvider "alerts" [("deploy", [])] [("provider", "email+slack")] =
        none := by
  have h :=
    getStateToPutForProvider_empty_tree "deploy" [("provider", "email+slack")]
      "email+slack" rfl
  have h2 :=
    getStateToPutForProvider_empty_tree "alerts" [("provider", "email+slack")]
      "email+slack" rfl
  constructor
  · rw [h.1]; rfl
  · exact h2.2 [("deploy", [])] (List.cons_ne_nil _ _) rfl

/-- C5: the backfill output has exactly the known provider keys, and each
value is the effective fallback for requested providers and the
scope-dependent off value otherwise. -/
theorem backfill_complete_keys (data : ProviderValues)
    (providerList : List String) (fallbackValue scopeType : String) :
    (backfillMissingProvidersWithFallback data providerList fallbackValue
          scopeType).map Prod.fst = ["email", "slack"] ∧
      ∀ p v,
        (p, v) ∈ backfillMissingProvidersWithFallback data providerList
            fallbackValue scopeType →
          v = if providerList.contains p then backfillFallback data fallbackValue
              else if scopeType == "user" then "never"
              else "default" := by
  constructor
  · rfl
  · intro p v hmem
    unfold backfillMissingProvidersWithFallback ALL_PROVIDERS at hmem
    simp only [List.map_cons, List.map_nil, List.mem_cons, List.not_mem_nil,
      or_false, Prod.mk.injEq] at hmem
    rcases hmem with ⟨rfl, rfl⟩ | ⟨rfl, rfl⟩ <;> rfl

/-- Witness for C5 at a concrete partial mapping. -/
theorem backfill_complete_keys_witness :
    (backfillMissingProvidersWithFallback [("email", "always")] ["email"] "x"
          "user").map Prod.fst = ["email", "slack"] ∧
      "always" =
        if (["email"] : List String).contains "email" then
          backfillFallback [("email", "always")] "x"
        else if ("user" : String) == "user" then "never"
        else "default" :=
  ⟨(backfill_complete_keys [("email", "always")] ["email"] "x" "user").1,
   (backfill_complete_keys [("email", "always")] ["email"] "x" "user").2 "email"
     "always" (by decide)⟩

theorem foldl_never_eq_filter_getLast (vals : List String) (init : String) :
    vals.foldl
        (fun previousValue currentValue =>
          if currentValue == "never" then previousValue else currentValue)
        init =
      ((vals.filter (fun v => !(v == "never"))).getLast?).getD init := by
  induction vals generalizing init with
  | nil => rfl
  | cons c rest ih =>
      rw [List.foldl_cons, ih, List.filter_cons]
      cases hc : (c == "never") with
      | true => simp [hc]
      | false => simp [hc, List.getLast?_cons]

/-- C6: the effective fallback of the backfill is the last non-"never"
value of the partial mapping under the left-to-right reduction, the
passed-in fallbackValue when no such value exists, and in particular
"always" for the mapping email = always, slack = never. -/
theorem backfillFallback_last_non_never :
    (∀ (data : ProviderValues) (fallbackValue : String),
        backfillFallback data fallbackValue =
          (((data.map Prod.snd).filter (fun v => !(v == "never"))).getLast?).getD
            fallbackValue) ∧
      ∀ fallbackValue : String,
        backfillFallback [("email", "always"), ("slack", "never")] fallbackValue =
          "always" := by
  constructor
  · intro data fallbackValue
    exact foldl_never_eq_filter_getLast (data.map Prod.snd) fallbackValue
  · intro fallbackValue
    rfl

/-- C8 counterexample: with no currently-active provider the parent entries
of the patch still map email to "default" (the email fallback list is used
for the parent reset too), so they are not restricted to currently-active
providers as claimed. -/
theorem getStateToPutForDefault_inactive_cex :
    getCurrentProviders "alerts" exTreeC8 = [] ∧
      (((getStateToPutForDefault "alerts" exTreeC8 [("x", "never")]
                ["10", "20"]).lookup "alerts").bind
            (fun s => s.lookup "project")).bind
          (fun s => s.lookup "10") =
        some [("email", "default")] := by
  constructor <;> rfl

/-- C8 amended: with new level "never" the patch maps "me" to "never" and
every given parent id under the grouping scope to "default", in both cases
for every provider of the effective list: the currently-active providers,
or the email singleton when none are active. -/
theorem getStateToPutForDefault_never_cascade (t : String)
    (tree : NotificationSettingsObject) (changedData : List (String × String))
    (parentIds : List String) (h : jsFirstValue changedData = "never") :
    getStateToPutForDefault t tree changedData parentIds =
      [(t,
        [("user",
          [("me",
            (currentOrEmailProviders t tree).map (fun p => (p, "never")))]),
         (getParentKey t,
          parentIds.map
            (fun parentId =>
              (parentId,
                (currentOrEmailProviders t tree).map
                  (fun p => (p, "default")))))])] := by
  simp [getStateToPutForDefault, h]

/-- Witness for C8 amended: the cascading reset at parent ids 10 and 20. -/
theorem getStateToPutForDefault_never_cascade_witness :
    getStateToPutForDefault "alerts" exTreeC8w [("x", "never")] ["10", "20"] =
      [("alerts",
        [("user", [("me", [("email", "never")])]),
         ("project",
          [("10", [("email", "default")]), ("20", [("email", "default")])])])] := by
  rw [getStateToPutForDefault_never_cascade "alerts" exTreeC8w [("x", "never")]
    ["10", "20"] rfl]
  rfl

/-- C9: a present user-scope entry with an empty provider mapping gives an
empty user-default mapping (an empty object is truthy, so the synthesized
defaults are not used), the parent-independent setting degrades to "never",
and the decision falls through to the parent-specific stage. -/
theorem decideDefault_empty_user_mapping (t : String)
    (tree : NotificationSettingsObject) (scopeId : String)
    (h : (tree.lookup t).bind (fun s => s.lookup "user") = some [(scopeId, [])]) :
    getUserDefaultValues t tree = [] ∧
      parentIndependentSetting t tree = "never" ∧
      decideDefault t tree =
        (if parentSpecificSetting t tree == "default" then "never"
         else parentSpecificSetting t tree) := by
  have h1 : getUserDefaultValues t tree = [] := by
    unfold getUserDefaultValues
    rw [h]
    rfl
  have h2 : parentIndependentSetting t tree = "never" := by
    unfold parentIndependentSetting
    rw [h1]
    rfl
  refine ⟨h1, h2, ?_⟩
  unfold decideDefault
  rw [h2]
  simp

/-- Witness for C9: the empty user mapping falls through to the parent
override subscribe_only. -/
theorem decideDefault_empty_user_mapping_witness :
    parentIndependentSetting "alerts" exTreeC9 = "never" ∧
      decideDefault "alerts" exTreeC9 = "subscribe_only" := by
  have h := decideDefault_empty_user_mapping "alerts" exTreeC9 "me" rfl
  refine ⟨h.2.1, ?_⟩
  rw [h.2.2]
  decide

/-- C10: when no provider is currently active, getStateToPutForParent
applies no email fallback: the patch maps the parent id to the empty
provider mapping. -/
theorem getStateToPutForParent_no_active (t : String)
    (tree : NotificationSettingsObject) (changedData : List (String × String))
    (parentId : String) (h : getCurrentProviders t tree = []) :
    getStateToPutForParent t tree changedData parentId =
      [(t, [(getParentKey t, [(parentId, [])])])] := by
  simp [getStateToPutForParent, h]

/-- Witness for C10 at a workflow tree with no active providers. -/
theorem getStateToPutForParent_no_active_witness :
    getCurrentProviders "workflow" exTreeC10 = [] ∧
      getStateToPutForParent "workflow" exTreeC10 [("w", "always")] "1" =
        [("workflow", [("project", [("1", [])])])] := by
  refine ⟨by decide, ?_⟩
  rw [getStateToPutForParent_no_active "workflow" exTreeC10 [("w", "always")] "1"
    (by decide)]
  rfl

theorem foldl_flatMap_eq {α β γ : Type} (l : List α) (f : α → List β)
    (g : γ → β → γ) (init : γ) :
    (l.flatMap f).foldl g init = l.foldl (fun acc x => (f x).foldl g acc) init := by
  induction l generalizing init with
  | nil => rfl
  | cons a rest ih =>
      rw [List.flatMap_cons, List.foldl_append, List.foldl_cons, ih]

theorem setEntry_lookup (es : List (String × JsVal)) (k : String) (x : JsVal)
    (t : String) :
    (setEntry es k x).lookup t = if k = t then some x else es.lookup t := by
  induction es with
  | nil =>
      by_cases h : k = t
      · subst h
        simp [setEntry, List.lookup]
      · have hb : (t == k) = false := beq_eq_false_iff_ne.mpr (Ne.symm h)
        simp [setEntry, List.lookup, h, hb]
  | cons e rest ih =>
      obtain ⟨k1, v1⟩ := e
      by_cases h1 : k1 = k
      · subst h1
        by_cases h2 : k1 = t
        · subst h2
          simp [setEntry, List.lookup]
        · have hb : (t == k1) = false := beq_eq_false_iff_ne.mpr (Ne.symm h2)
          simp [setEntry, List.lookup, h2, hb]
      · have hb1 : (k1 == k) = false := beq_eq_false_iff_ne.mpr h1
        by_cases h2 : k1 = t
        · subst h2
          have hkt : ¬k = k1 := fun hh => h1 hh.symm
          simp [setEntry, List.lookup, hb1, hkt]
        · have hb2 : (t == k1) = false := beq_eq_false_iff_ne.mpr (Ne.symm h2)
          simp [setEntry, List.lookup, hb1, hb2, ih]

theorem jsGet_objOrFresh (v : Option JsVal) (s : String) :
    jsGet (objOrFresh v) s = v.bind (fun w => jsGet w s) := by
  match v with
  | none => rfl
  | some (JsVal.str _) => rfl
  | some (JsVal.obj _) => rfl

theorem jsGet_setPath_last (es : List (String × JsVal)) (k : String) (x : JsVal)
    (t : String) :
    jsGet (setPath (JsVal.obj es) [k] x) t = if k = t then some x else es.lookup t := by
  rw [show setPath (JsVal.obj es) [k] x = JsVal.obj (setEntry es k x) from rfl]
  rw [show jsGet (JsVal.obj (setEntry es k x)) t = (setEntry es k x).lookup t from rfl]
  exact setEntry_lookup es k x t

theorem jsGet_setPath_cons (es : List (String × JsVal)) (k k2 : String)
    (rest : List String) (x : JsVal) (t : String) :
    jsGet (setPath (JsVal.obj es) (k :: k2 :: rest) x) t =
      if k = t then some (setPath (objOrFresh (es.lookup k)) (k2 :: rest) x)
      else es.lookup t := by
  rw [show setPath (JsVal.obj es) (k :: k2 :: rest) x =
        JsVal.obj
          (setEntry es k (setPath (objOrFresh (es.lookup k)) (k2 :: rest) x)) from
    rfl]
  exact setEntry_lookup es k _ t

theorem lookupPath2_setPath2 (es : List (String × JsVal)) (b c : String)
    (x : JsVal) (s i : String) :
    (jsGet (setPath (JsVal.obj es) [b, c] x) s).bind (fun v => jsGet v i) =
      if b = s ∧ c = i then some x
      else (jsGet (JsVal.obj es) s).bind (fun v => jsGet v i) := by
  rw [jsGet_setPath_cons]
  by_cases hbs : b = s
  · subst hbs
    rw [if_pos rfl, Option.some_bind]
    cases hM : es.lookup b with
    | none =>
        rw [show objOrFresh none = JsVal.obj [] from rfl, jsGet_setPath_last]
        by_cases hci : c = i
        · subst hci
          rw [if_pos rfl, if_pos ⟨rfl, rfl⟩]
        · rw [if_neg hci, if_neg (fun hh => hci hh.2)]
          simp [jsGet, hM, List.lookup]
    | some w =>
        cases w with
        | str w0 =>
            rw [show objOrFresh (some (JsVal.str w0)) = JsVal.obj [] from rfl,
              jsGet_setPath_last]
            by_cases hci : c = i
            · subst hci
              rw [if_pos rfl, if_pos ⟨rfl, rfl⟩]
            · rw [if_neg hci, if_neg (fun hh => hci hh.2)]
              simp [jsGet, hM, List.lookup]
        | obj ces =>
            rw [show objOrFresh (some (JsVal.obj ces)) = JsVal.obj ces from rfl,
              jsGet_setPath_last]
            by_cases hci : c = i
            · subst hci
              rw [if_pos rfl, if_pos ⟨rfl, rfl⟩]
            · rw [if_neg hci, if_neg (fun hh => hci hh.2)]
              simp [jsGet, hM]
  · rw [if_neg hbs, if_neg (fun hh => hbs hh.1)]
    rfl

theorem lookupPath3_setPath3 (es : List (String × JsVal)) (a b c : String)
    (x : JsVal) (t s i : String) :
    lookupPath3 (setPath (JsVal.obj es) [a, b, c] x) t s i =
      if a = t ∧ b = s ∧ c = i then some x
      else lookupPath3 (JsVal.obj es) t s i := by
  unfold lookupPath3
  rw [jsGet_setPath_cons]
  by_cases hat : a = t
  · subst hat
    rw [if_pos rfl, Option.some_bind]
    cases hL : es.lookup a with
    | none =>
        rw [show objOrFresh none = JsVal.obj [] from rfl, lookupPath2_setPath2]
        by_cases h2 : b = s ∧ c = i
        · rw [if_pos h2, if_pos ⟨rfl, h2.1, h2.2⟩]
        · rw [if_neg h2, if_neg (fun hh => h2 ⟨hh.2.1, hh.2.2⟩)]
          simp [jsGet, hL, List.lookup]
    | some w =>
        cases w with
        | str w0 =>
            rw [show objOrFresh (some (JsVal.str w0)) = JsVal.obj [] from rfl,
              lookupPath2_setPath2]
            by_cases h2 : b = s ∧ c = i
            · rw [if_pos h2, if_pos ⟨rfl, h2.1, h2.2⟩]
            · rw [if_neg h2, if_neg (fun hh => h2 ⟨hh.2.1, hh.2.2⟩)]
              simp [jsGet, hL, List.lookup]
        | obj ces =>
            rw [show objOrFresh (some (JsVal.obj ces)) = JsVal.obj ces from rfl,
              lookupPath2_setPath2]
            by_cases h2 : b = s ∧ c = i
            · rw [if_pos h2, if_pos ⟨rfl, h2.1, h2.2⟩]
            · rw [if_neg h2, if_neg (fun hh => h2 ⟨hh.2.1, hh.2.2⟩)]
              simp [jsGet, hL]
  · rw [if_neg hat, if_neg (fun hh => hat hh.1)]
    rfl

theorem lookupPath3_foldl_setPath
    (ops : List ((String × String × String) × ProviderValues))
    (es : List (String × JsVal)) (t s i : String) :
    lookupPath3 (ops.foldl stepExplicit (JsVal.obj es)) t s i =
      match (ops.filter (fun op => op.1 == (t, s, i))).getLast? with
      | some op => some (providerValuesToJs op.2)
      | none => lookupPath3 (JsVal.obj es) t s i := by
  induction ops generalizing es with
  | nil => rfl
  | cons op rest ih =>
      obtain ⟨⟨a, b, c⟩, m⟩ := op
      rw [List.foldl_cons]
      have hbase : stepExplicit (JsVal.obj es) ((a, b, c), m) =
          JsVal.obj
            (setEntry es a
              (setPath (objOrFresh (es.lookup a)) [b, c] (providerValuesToJs m))) := rfl
      rw [hbase, ih, List.filter_cons]
      by_cases hop : (a, b, c) = (t, s, i)
      · have hb : ((((a, b, c), m)).1 == (t, s, i)) = true := beq_iff_eq.mpr hop
        rw [hb, if_pos rfl, List.getLast?_cons]
        cases hlast : (rest.filter (fun op => op.1 == (t, s, i))).getLast? with
        | some op2 => simp
        | none =>
            simp only [Option.getD_none]
            rw [← hbase,
              show stepExplicit (JsVal.obj es) ((a, b, c), m) =
                setPath (JsVal.obj es) [a, b, c] (providerValuesToJs m) from rfl,
              lookupPath3_setPath3]
            have hc : a = t ∧ b = s ∧ c = i := by
              simpa [Prod.ext_iff] using hop
            rw [if_pos hc]
      · have hb : ((((a, b, c), m)).1 == (t, s, i)) = false :=
          beq_eq_false_iff_ne.mpr hop
        rw [hb]
        simp only [Bool.false_eq_true, if_false]
        cases hlast : (rest.filter (fun op => op.1 == (t, s, i))).getLast? with
        | some op2 => rfl
        | none =>
            rw [← hbase,
              show stepExplicit (JsVal.obj es) ((a, b, c), m) =
                setPath (JsVal.obj es) [a, b, c] (providerValuesToJs m) from rfl,
              lookupPath3_setPath3]
            have hc : ¬(a = t ∧ b = s ∧ c = i) := by
              intro hh
              exact hop (by rw [hh.1, hh.2.1, hh.2.2])
            rw [if_neg hc]

/-- Sanity equations pinning stringToPath to the documented lodash
behavior: dot splitting, numeric and quoted bracket segments, escaped
quotes, leading dots, empty segments between consecutive dots or empty
bracket pairs, and dot-free bracket-free keys passing through whole. -/
theorem stringToPath_examples :
    stringToPath "a.b.c" = ["a", "b", "c"] ∧
      stringToPath "a[0].user.me" = ["a", "0", "user", "me"] ∧
      stringToPath "a[0][1]" = ["a", "0", "1"] ∧
      stringToPath "a[\"b.c\"].d" = ["a", "b.c", "d"] ∧
      stringToPath "a[\"x\\\"y\"]" = ["a", "x\"y"] ∧
      stringToPath ".a" = ["", "a"] ∧
      stringToPath "a..b" = ["a", "", "b"] ∧
      stringToPath "a[].b" = ["a", "", "b"] ∧
      stringToPath "a]b.c" = ["a", "b", "c"] ∧
      stringToPath "alerts.user.me" = ["alerts", "user", "me"] := by
  decide

theorem mergeNotificationSettings_eq_foldl (objects : List NotificationSettingsObject) :
    mergeNotificationSettings objects =
      (flattenSettings objects).foldl stepSplit (JsVal.obj []) := by
  unfold mergeNotificationSettings flattenSettings
  simp only [foldl_flatMap_eq, List.foldl_map]
  rfl

/-- C7 amended: merging is right-biased per (type, scopeType, scopeId)
path provided every key triple in every input tree survives the
join-then-parse (lodash stringToPath of the dot-joined keys returns
exactly the three keys; any keys free of dots and square brackets
qualify): the merged output at a path holds exactly the provider mapping
of the last occurrence of that path across the argument trees in writing
order, and nothing at paths never written.  Without the key hypothesis the
claim fails: a dotted key, or a dot-free key with a bracket index, lands
at a different nesting — see the counterexample. -/
theorem mergeNotificationSettings_right_biased (objects : List NotificationSettingsObject)
    (t s i : String)
    (hkeys : ∀ op ∈ flattenSettings objects,
      stringToPath (op.1.1 ++ "." ++ op.1.2.1 ++ "." ++ op.1.2.2) =
        [op.1.1, op.1.2.1, op.1.2.2]) :
    lookupPath3 (mergeNotificationSettings objects) t s i =
      match ((flattenSettings objects).filter (fun op => op.1 == (t, s, i))).getLast? with
      | some op => some (providerValuesToJs op.2)
      | none => none := by
  rw [mergeNotificationSettings_eq_foldl]
  have hext : ∀ (acc : JsVal), ∀ op ∈ flattenSettings objects,
      stepSplit acc op = stepExplicit acc op := by
    intro acc op hop
    unfold stepSplit stepExplicit
    rw [hkeys op hop]
  rw [List.foldl_ext stepSplit stepExplicit (JsVal.obj []) hext]
  rw [lookupPath3_foldl_setPath]
  cases hlast : ((flattenSettings objects).filter (fun op => op.1 == (t, s, i))).getLast? with
  | some op2 => rfl
  | none => rfl

/-- C7 counterexample: the paths (a.b, user, me) and (a[0], user, me) are
present in their input trees, yet the merged outputs hold nothing at those
paths: lodash set re-splits the joined key — on the dot for a.b, and on
the bracket index for a[0], whose leaf lands at a / 0 / user / me
instead. -/
theorem mergeNotificationSettings_dotted_key_cex :
    (((dottedTree.lookup "a.b").bind (fun st => st.lookup "user")).bind
          (fun si => si.lookup "me") = some [("email", "always")] ∧
        lookupPath3 (mergeNotificationSettings [dottedTree]) "a.b" "user" "me" =
          none) ∧
      ((bracketTree.lookup "a[0]").bind (fun st => st.lookup "user")).bind
          (fun si => si.lookup "me") = some [("email", "always")] ∧
        lookupPath3 (mergeNotificationSettings [bracketTree]) "a[0]" "user" "me" =
          none ∧
        ((jsGet (mergeNotificationSettings [bracketTree]) "a").bind
              (fun v => jsGet v "0")).bind
            (fun v => jsGet v "user") =
          some (JsVal.obj [("me", providerValuesToJs [("email", "always")])]) := by
  refine ⟨⟨rfl, rfl⟩, rfl, rfl, rfl⟩

/-- Witness for C7 amended at the specification's right-bias example: the
later tree's mapping email = never wins. -/
theorem mergeNotificationSettings_right_biased_witness :
    lookupPath3 (mergeNotificationSettings [mergeTreeA, mergeTreeB]) "alerts" "user"
        "me" = some (providerValuesToJs [("email", "never")]) := by
  rw [mergeNotificationSettings_right_biased [mergeTreeA, mergeTreeB] "alerts" "user"
    "me" (by decide)]
  rfl
